import Mathlib

/-!
Verification development for the GamePerf RPC module
(`src/rpc/command.rs`, `src/rpc/mod.rs`).

The development shallowly embeds:
* the base64 transcoder used by `Base64File` (standard alphabet, `=` padding,
  modelling the `base64` crate's `encode` / `decode_config_slice` with the
  `STANDARD` config);
* the file gateway `open_file` / `write_file` over an abstract file system
  (paths are lists of characters, `std::path` extension handling is embedded
  for paths whose final component carries the file name);
* the capture handler `start_capture` and the channel messages it sends;
* the request router `rpc_handler` of `mod.rs` together with the
  host-event handler `event_handler`.

Bytes are modelled as natural numbers below 256, `Vec<u8>` as `List Nat`,
`String`/`OsString` path data as `List Char`.
-/

/-- The 64 characters of the standard base64 alphabet, in index order. -/
def b64Chars : List Char :=
  "ABCDEFGHIJKLMNOPQRSTUVWXYZabcdefghijklmnopqrstuvwxyz0123456789+/".toList

/-- Character for a six-bit group (the encoder's alphabet table lookup). -/
def sextetToChar (n : Nat) : Char := b64Chars.getD n 'A'

/-- Inverse alphabet lookup: index of a character in the alphabet, `none` for
characters outside the alphabet (the decoder's `InvalidByte` rejection). -/
def charToSextet (c : Char) : Option Nat := b64Chars.findIdx? (· == c)

/-- Base64 encoding of a byte sequence, standard alphabet with `=` padding and
no line wrapping: the model of `base64::encode` (command.rs:117). -/
def base64Encode : List Nat → List Char
  | [] => []
  | [b0] => [sextetToChar (b0 / 4), sextetToChar (b0 % 4 * 16), '=', '=']
  | [b0, b1] =>
      [sextetToChar (b0 / 4), sextetToChar (b0 % 4 * 16 + b1 / 16),
       sextetToChar (b1 % 16 * 4), '=']
  | b0 :: b1 :: b2 :: rest =>
      sextetToChar (b0 / 4) :: sextetToChar (b0 % 4 * 16 + b1 / 16) ::
      sextetToChar (b1 % 16 * 4 + b2 / 64) :: sextetToChar (b2 % 64) ::
      base64Encode rest

/-- Decode one full (non-padded) group of four base64 characters into three
bytes; `none` if any character is outside the alphabet. -/
def decodeQuad (c0 c1 c2 c3 : Char) : Option (Nat × Nat × Nat) :=
  match charToSextet c0, charToSextet c1, charToSextet c2, charToSextet c3 with
  | some s0, some s1, some s2, some s3 =>
      some (s0 * 4 + s1 / 16, s1 % 16 * 16 + s2 / 4, s2 % 4 * 64 + s3)
  | _, _, _, _ => none

/-- Decode a final group of two base64 characters (one byte).  Nonzero
trailing bits in the last data symbol are rejected, as the crate's
`InvalidLastSymbol` check does. -/
def decodeFinal2 (c0 c1 : Char) : Option (List Nat) :=
  match charToSextet c0, charToSextet c1 with
  | some s0, some s1 => if s1 % 16 = 0 then some [s0 * 4 + s1 / 16] else none
  | _, _ => none

/-- Decode a final group of three base64 characters (two bytes), with the
same trailing-bits check. -/
def decodeFinal3 (c0 c1 c2 : Char) : Option (List Nat) :=
  match charToSextet c0, charToSextet c1, charToSextet c2 with
  | some s0, some s1, some s2 =>
      if s2 % 4 = 0 then some [s0 * 4 + s1 / 16, s1 % 16 * 16 + s2 / 4]
      else none
  | _, _, _ => none

/-- Decode the final group of four base64 characters, which may carry one or
two `=` padding characters. -/
def decodeLastQuad (c0 c1 c2 c3 : Char) : Option (List Nat) :=
  if c3 ≠ '=' then
    match decodeQuad c0 c1 c2 c3 with
    | some (a, b, c) => some [a, b, c]
    | none => none
  else if c2 = '=' then decodeFinal2 c0 c1
  else decodeFinal3 c0 c1 c2

/-- Decode a base64 text in groups of four characters.  As in the crate's
pre-0.21 Config API, padding on the final group is optional: a final group of
two or three data characters (input length 2 or 3 mod 4) decodes to one or
two bytes, while a leftover single character (length 1 mod 4) is the
`InvalidLength` failure.  Any alphabet violation — including `=` anywhere
before the final group — is a total failure. -/
def decodeChunks : List Char → Option (List Nat)
  | [] => some []
  | [c0, c1] => decodeFinal2 c0 c1
  | [c0, c1, c2] => decodeFinal3 c0 c1 c2
  | c0 :: c1 :: c2 :: c3 :: rest =>
      if rest.isEmpty then decodeLastQuad c0 c1 c2 c3
      else
        match decodeQuad c0 c1 c2 c3, decodeChunks rest with
        | some (a, b, c), some tail => some (a :: b :: c :: tail)
        | _, _ => none
  | _ => none

/-- The byte sequence denoted by a base64 text, `none` on any decode error:
the model of the decoding performed by `base64::decode_config_slice` with
`base64::STANDARD` (command.rs:159). -/
def base64Decode (s : List Char) : Option (List Nat) := decodeChunks s

/-- Outcome of an operation in the embedding: `ok`, a recoverable error
(`anyhow::Error` / `DecodeError`), or a Rust panic. -/
inductive DecodeResult (α : Type) where
  | ok (val : α)
  | err
  | panicked
deriving DecidableEq

/-- The size-guarded text envelope payload (command.rs:150-154). -/
structure Base64File where
  unencoded_size : Nat
  base64 : List Char
deriving DecidableEq

/-- Model of `Base64File::decode` (command.rs:156-162).  The Rust code
allocates `vec![0; unencoded_size]`, runs `decode_config_slice` into it and
returns the vector, ignoring the written-length the slice decoder reports:
decoded bytes fill a prefix, the rest of the buffer keeps its zero fill.
`decode_config_slice` panics when the buffer is smaller than the decoded
output, and its `DecodeError` is propagated by `?`. -/
def Base64File.decode (f : Base64File) : DecodeResult (List Nat) :=
  match base64Decode f.base64 with
  | none => .err
  | some bytes =>
      if f.unencoded_size < bytes.length then .panicked
      else .ok (bytes ++ List.replicate (f.unencoded_size - bytes.length) 0)

/-- The payload built by `open_file` (command.rs:116-117):
`unencoded_size = file.len()` and `base64 = base64::encode(file)`. -/
def encodePayload (file : List Nat) : Base64File :=
  { unencoded_size := file.length, base64 := base64Encode file }

/-- The file envelope `RpcFile` (command.rs:144-148). -/
structure RpcFile where
  path : List Char
  file : Base64File
deriving DecidableEq

/-- Read-only file-system interface consumed by `open_file`:
`Path::canonicalize` and `fs::read`, each may fail with an io error. -/
structure FileSys where
  canonicalize : List Char → Except Unit (List Char)
  read : List Char → Except Unit (List Nat)

/-- Model of `open_file` (command.rs:114-119): read the canonicalized path,
but return the envelope with the path exactly as passed in. -/
def open_file (fsys : FileSys) (path : List Char) : Except Unit RpcFile :=
  match fsys.canonicalize path with
  | .error e => .error e
  | .ok canon =>
      match fsys.read canon with
      | .error e => .error e
      | .ok file => .ok { path := path, file := encodePayload file }

/-- Split a reversed character list at its first `'.'`:
`some (before, after)` where `before ++ '.' :: after` is the input.  Applied
to a reversed file name this finds the last dot. -/
def revSplitDot : List Char → Option (List Char × List Char)
  | [] => none
  | c :: rest =>
      if c = '.' then some ([], rest)
      else (revSplitDot rest).map (fun p => (c :: p.1, p.2))

/-- Split a reversed path at its first `'/'`: the first component is the
reversed file name, the second the reversed directory part (slash included). -/
def revSplitSlash : List Char → List Char × List Char
  | [] => ([], [])
  | c :: rest =>
      if c = '/' then ([], c :: rest)
      else
        let p := revSplitSlash rest
        (c :: p.1, p.2)

/-- Model of `Path::extension`: the part of the file name after its last dot,
`none` when the file name has no dot or only a leading dot.  Paths are taken
in the forms the application passes around: no trailing slash and no `.`/`..`
components. -/
def extension (p : List Char) : Option (List Char) :=
  match revSplitDot (revSplitSlash p.reverse).1 with
  | some (er, sr) => if sr = [] then none else some er.reverse
  | none => none

/-- Model of `Path::file_stem` restricted to the same path forms: the file
name with its extension (and the dot) removed. -/
def file_stem (p : List Char) : List Char :=
  match revSplitDot (revSplitSlash p.reverse).1 with
  | some (_, sr) =>
      if sr = [] then (revSplitSlash p.reverse).1.reverse else sr.reverse
  | none => (revSplitSlash p.reverse).1.reverse

/-- Model of `Path::with_extension`: directory part, file stem, and the new
extension after a dot (no dot when the new extension is empty). -/
def with_extension (p ext : List Char) : List Char :=
  (revSplitSlash p.reverse).2.reverse ++ file_stem p ++
    (if ext = [] then [] else '.' :: ext)

/-- Mutable file-system state seen by `write_file`: the byte content of every
existing path. -/
structure FSState where
  files : List Char → Option (List Nat)

/-- The backup step of `write_file` (command.rs:124-132): when the
destination exists (`path.exists()`) and has an extension, `fs::copy` the
destination's bytes to the path obtained by `Path::with_extension` with
`.bak` pushed onto the extension; otherwise leave the file system alone.
`fs::copy` io failures are not modelled (the copied source exists in the
branch that copies). -/
def backupStep (fs : FSState) (path : List Char) : FSState :=
  if (fs.files path).isSome then
    match extension path with
    | some ext =>
        { files := fun p =>
            if p = with_extension path (ext ++ ".bak".toList) then fs.files path
            else fs.files p }
    | none => fs
  else fs

/-- Model of `write_file` (command.rs:121-136): run the backup step, then
decode the payload and overwrite the destination (`fs::write`, its io failure
not modelled).  The backup happens before the decode (`file.decode()?` sits
inside the final `fs::write` call), so a decode failure — or the decoder's
panic — leaves the backup behind and the destination untouched. -/
def write_file (fs : FSState) (rpc_file : RpcFile) : FSState × DecodeResult Unit :=
  match rpc_file.file.decode with
  | .ok bytes =>
      ({ files := fun p =>
          if p = rpc_file.path then some bytes
          else (backupStep fs rpc_file.path).files p }, .ok ())
  | .err => (backupStep fs rpc_file.path, .err)
  | .panicked => (backupStep fs rpc_file.path, .panicked)

/-- Argument record of `start_capture` (command.rs:164-167). -/
structure StartCaptureArgs where
  name : String
deriving DecidableEq

/-- Signals sent to the capture worker (`base::ChannelMsg`). -/
inductive ChannelMsg where
  | StartCapture (name : String)
  | StopCapture
deriving DecidableEq

/-- Model of `start_capture` (command.rs:169-179): query the foreground
process (`util::current_app()?`), compare it with the requested name, and
either send `StartCapture` on the channel and return the stop caption, or
send nothing and return the mismatch caption.  The first component collects
the messages sent on `utils.tx` (`let _ = …send(…)`: send failures are
ignored). -/
def start_capture (current_app : Except Unit String) (args : StartCaptureArgs) :
    List ChannelMsg × Except Unit String :=
  match current_app with
  | .error e => ([], .error e)
  | .ok topapp =>
      if topapp ≠ args.name then ([], .ok "结束采集(请打开游戏)")
      else ([ChannelMsg.StartCapture args.name], .ok "结束采集")

/-- Model of `stop_capture` (command.rs:181-185): unconditionally send
`StopCapture` and return the start caption. -/
def stop_capture : List ChannelMsg × Except Unit String :=
  ([ChannelMsg.StopCapture], .ok "开始采集")

/-- JSON values carried by requests, responses and events
(`serde_json::Value`; numbers kept abstract as integers, which no routed
claim inspects). -/
inductive JValue where
  | null
  | bool (b : Bool)
  | num (n : Int)
  | str (s : String)
  | arr (elems : List JValue)
  | obj (fields : List (String × JValue))

/-- Host events (`Event`, mod.rs:121-125), keeping the source's spelling of
`BoardCastToJs`. -/
inductive Event where
  | CloseWindow
  | DispatchCustomEvent (name : String) (detail : JValue)
  | BoardCastToJs (detail : JValue)

/-- An inbound request (`wry::webview::RpcRequest`). -/
structure RpcRequest where
  id : Option JValue
  method : String
  params : Option JValue

/-- An outbound response frame (`wry::webview::RpcResponse`). -/
structure RpcResponse where
  id : Option JValue
  result : Option JValue
  error : Option JValue

/-- Constructor `RpcResponse::new_result`. -/
def RpcResponse.new_result (id : Option JValue) (result : Option JValue) : RpcResponse :=
  { id := id, result := result, error := none }

/-- Constructor `RpcResponse::new_error`. -/
def RpcResponse.new_error (id : Option JValue) (error : Option JValue) : RpcResponse :=
  { id := id, result := none, error := error }

/-- Window operations issued by the notify commands (command.rs:15-30). -/
inductive WindowOp where
  | setVisible (b : Bool)
  | setMinimized (b : Bool)
  | dragWindow

/-- The update tasks spawned by the call commands (command.rs:37-58). -/
inductive UpdateTask where
  | checkForUpdate
  | downloadAndInstall

/-- Host-side observable state threaded through one router dispatch: window
operations performed, events sent on the event proxy, messages sent on the
capture channel, and update tasks spawned. -/
structure RpcState where
  windowOps : List WindowOp
  events : List Event
  channel : List ChannelMsg
  spawned : List UpdateTask

/-- The handler arms whose bodies the routing claims never execute, kept
abstract: the special-cased `open_command_line_save` body (mod.rs:68-80), the
dialog-based call commands, and — for each call-with-param method — the
composite of `serde_json::from_value` on the single parameter and the command
handler plus `serde_json::to_value` on its result (mod.rs:48-51).  Each arm
transforms the host state and yields `Ok(Option<Value>)` or an error
message. -/
structure RouterEnv where
  open_command_line_save : RpcState → RpcState × Except String (Option JValue)
  import_head_morph : RpcState → RpcState × Except String (Option JValue)
  export_head_morph_dialog : RpcState → RpcState × Except String (Option JValue)
  open_external_link : JValue → RpcState → RpcState × Except String (Option JValue)
  open_save : JValue → RpcState → RpcState × Except String (Option JValue)
  save_file : JValue → RpcState → RpcState × Except String (Option JValue)
  save_save_dialog : JValue → RpcState → RpcState × Except String (Option JValue)
  reload_save : JValue → RpcState → RpcState × Except String (Option JValue)
  load_database : JValue → RpcState → RpcState × Except String (Option JValue)
  start_capture : JValue → RpcState → RpcState × Except String (Option JValue)

/-- Shared body of the `call_commands_with_param!` arms (mod.rs:43-56): take
`params`, failing with the `argument required` context when it is absent, and
only then decode it and run the handler. -/
def call_with_param (h : JValue → RpcState → RpcState × Except String (Option JValue))
    (req : RpcRequest) (st : RpcState) : RpcState × Except String (Option JValue) :=
  match req.params with
  | none => (st, .error "argument required")
  | some p => h p st

/-- Model of the `handle_request` closure (mod.rs:67-109): the special case
for `open_command_line_save`, then the notify, call and call-with-param
if-chains in registration order, then the `Wrong RPC method` bail. -/
def handle_request (env : RouterEnv) (req : RpcRequest) (st : RpcState) :
    RpcState × Except String (Option JValue) :=
  if req.method = "open_command_line_save" then env.open_command_line_save st
  else if req.method = "init" then
    ({ st with windowOps := st.windowOps ++ [.setVisible true] }, .ok none)
  else if req.method = "minimize" then
    ({ st with windowOps := st.windowOps ++ [.setMinimized true] }, .ok none)
  else if req.method = "toggle_maximize" then (st, .ok none)
  else if req.method = "drag_window" then
    ({ st with windowOps := st.windowOps ++ [.dragWindow] }, .ok none)
  else if req.method = "close" then
    ({ st with events := st.events ++ [.CloseWindow] }, .ok none)
  else if req.method = "check_for_update" then
    ({ st with spawned := st.spawned ++ [.checkForUpdate] }, .ok (some .null))
  else if req.method = "download_and_install_update" then
    ({ st with spawned := st.spawned ++ [.downloadAndInstall] }, .ok (some .null))
  else if req.method = "import_head_morph" then env.import_head_morph st
  else if req.method = "export_head_morph_dialog" then env.export_head_morph_dialog st
  else if req.method = "stop_capture" then
    ({ st with channel := st.channel ++ [.StopCapture] }, .ok (some (.str "开始采集")))
  else if req.method = "open_external_link" then call_with_param env.open_external_link req st
  else if req.method = "open_save" then call_with_param env.open_save req st
  else if req.method = "save_file" then call_with_param env.save_file req st
  else if req.method = "save_save_dialog" then call_with_param env.save_save_dialog req st
  else if req.method = "reload_save" then call_with_param env.reload_save req st
  else if req.method = "load_database" then call_with_param env.load_database req st
  else if req.method = "start_capture" then call_with_param env.start_capture req st
  else (st, .error ("Wrong RPC method, got: " ++ req.method))

/-- Model of `rpc_handler` (mod.rs:65-119): run the request body, then emit no
frame on `Ok(None)`, a result frame on `Ok(Some(_))`, and an error frame
carrying the error's display string otherwise. -/
def rpc_handler (env : RouterEnv) (req : RpcRequest) (st : RpcState) :
    RpcState × Option RpcResponse :=
  match handle_request env req st with
  | (st', .ok none) => (st', none)
  | (st', .ok (some v)) => (st', some (RpcResponse.new_result req.id (some v)))
  | (st', .error e) => (st', some (RpcResponse.new_error req.id (some (.str e))))

/-- The registration table of the three dispatch macros, in source order
(mod.rs:82-106). -/
def dispatchTable : List String :=
  ["init", "minimize", "toggle_maximize", "drag_window", "close",
   "check_for_update", "download_and_install_update", "import_head_morph",
   "export_head_morph_dialog", "stop_capture",
   "open_external_link", "open_save", "save_file", "save_save_dialog",
   "reload_save", "load_database", "start_capture"]

/-- The call-with-param methods (mod.rs:98-106). -/
def withParamMethods : List String :=
  ["open_external_link", "open_save", "save_file", "save_save_dialog",
   "reload_save", "load_database", "start_capture"]

/-- Event-loop control flow (`tao`'s `ControlFlow`; the deadline of
`WaitUntil` is not modelled). -/
inductive ControlFlow where
  | Poll
  | Wait
  | WaitUntil
  | Exit
deriving DecidableEq

/-- Script-level injections into the UI performed by `event_handler`; the
JavaScript text built by `format!` is summarised by its two shapes. -/
inductive JsInjection where
  | customEvent (name : String) (detail : JValue)
  | message (data : JValue)

/-- Model of `event_handler` (mod.rs:127-162): `CloseWindow` sets the control
flow to `Exit`; the other two variants evaluate a script (failures ignored)
and leave the control flow alone. -/
def event_handler (ev : Event) (control_flow : ControlFlow) :
    ControlFlow × List JsInjection :=
  match ev with
  | .CloseWindow => (.Exit, [])
  | .DispatchCustomEvent name detail => (control_flow, [.customEvent name detail])
  | .BoardCastToJs detail => (control_flow, [.message detail])

/-- Modelled file system used as the C2 counterexample: the relative path
`./a.sav` canonicalizes to `/a.sav`, which holds the two bytes `hi`. -/
def c2FileSys : FileSys where
  canonicalize p := if p = "./a.sav".toList then .ok "/a.sav".toList else .error ()
  read p := if p = "/a.sav".toList then .ok [104, 105] else .error ()

/-- File-system state used by the C4 witness: only `a.sav` exists, holding
the bytes `[1, 2, 3]`. -/
def c4FS : FSState where
  files p := if p = "a.sav".toList then some [1, 2, 3] else none

/-- Envelope used by the C4 witness: new content `[9, 8]` for `a.sav`. -/
def c4File : RpcFile :=
  { path := "a.sav".toList, file := encodePayload [9, 8] }

/-- File-system state used by the C10 witness: only `b.sav` exists, holding
the byte `[7]`. -/
def c10FS : FSState where
  files p := if p = "b.sav".toList then some [7] else none

/-- Envelope used by the C10 witness: its base64 text `!` is not valid
base64, so decode fails. -/
def c10File : RpcFile :=
  { path := "b.sav".toList, file := { unencoded_size := 5, base64 := ['!'] } }

/-- Handler environment whose abstract arms do nothing: used only to
instantiate the routing theorems at concrete inputs. -/
def trivialEnv : RouterEnv where
  open_command_line_save st := (st, .ok none)
  import_head_morph st := (st, .ok none)
  export_head_morph_dialog st := (st, .ok none)
  open_external_link _ st := (st, .ok none)
  open_save _ st := (st, .ok none)
  save_file _ st := (st, .ok none)
  save_save_dialog _ st := (st, .ok none)
  reload_save _ st := (st, .ok none)
  load_database _ st := (st, .ok none)
  start_capture _ st := (st, .ok none)

/-- The host state with empty effect traces. -/
def emptyState : RpcState :=
  { windowOps := [], events := [], channel := [], spawned := [] }

/-- Alphabet lookup inverts the alphabet table on every six-bit value. -/
theorem charToSextet_sextetToChar_fin :
    ∀ s : Fin 64, charToSextet (sextetToChar s.val) = some s.val := by decide

theorem charToSextet_sextetToChar {s : Nat} (h : s < 64) :
    charToSextet (sextetToChar s) = some s :=
  charToSextet_sextetToChar_fin ⟨s, h⟩

/-- No alphabet character is the padding character. -/
theorem sextetToChar_ne_pad_fin : ∀ s : Fin 64, sextetToChar s.val ≠ '=' := by decide

theorem sextetToChar_ne_pad {s : Nat} (h : s < 64) : sextetToChar s ≠ '=' :=
  sextetToChar_ne_pad_fin ⟨s, h⟩

/-- Decoding a full quad of encoded characters recovers the three bytes. -/
theorem decodeQuad_encode {b0 b1 b2 : Nat}
    (h0 : b0 < 256) (h1 : b1 < 256) (h2 : b2 < 256) :
    decodeQuad (sextetToChar (b0 / 4)) (sextetToChar (b0 % 4 * 16 + b1 / 16))
      (sextetToChar (b1 % 16 * 4 + b2 / 64)) (sextetToChar (b2 % 64)) =
      some (b0, b1, b2) := by
  rw [decodeQuad,
    charToSextet_sextetToChar (s := b0 / 4) (by omega),
    charToSextet_sextetToChar (s := b0 % 4 * 16 + b1 / 16) (by omega),
    charToSextet_sextetToChar (s := b1 % 16 * 4 + b2 / 64) (by omega),
    charToSextet_sextetToChar (s := b2 % 64) (by omega)]
  refine congrArg some ?_
  refine Prod.ext ?_ (Prod.ext ?_ ?_) <;> simp <;> omega

/-- The encoding of a byte list is empty only for the empty list. -/
theorem base64Encode_eq_nil {l : List Nat} (h : base64Encode l = []) : l = [] := by
  match l with
  | [] => rfl
  | [b0] => simp [base64Encode] at h
  | [b0, b1] => simp [base64Encode] at h
  | b0 :: b1 :: b2 :: rest => simp [base64Encode] at h

/-- Decoding the encoded final group of a single byte recovers the byte. -/
theorem decodeFinal2_encode {b0 : Nat} (h0 : b0 < 256) :
    decodeFinal2 (sextetToChar (b0 / 4)) (sextetToChar (b0 % 4 * 16)) =
      some [b0] := by
  rw [decodeFinal2,
    charToSextet_sextetToChar (s := b0 / 4) (by omega),
    charToSextet_sextetToChar (s := b0 % 4 * 16) (by omega)]
  simp only
  rw [if_pos (by omega : b0 % 4 * 16 % 16 = 0)]
  refine congrArg some ?_
  simp
  omega

/-- Decoding the encoded final group of two bytes recovers the bytes. -/
theorem decodeFinal3_encode {b0 b1 : Nat} (h0 : b0 < 256) (h1 : b1 < 256) :
    decodeFinal3 (sextetToChar (b0 / 4)) (sextetToChar (b0 % 4 * 16 + b1 / 16))
      (sextetToChar (b1 % 16 * 4)) = some [b0, b1] := by
  rw [decodeFinal3,
    charToSextet_sextetToChar (s := b0 / 4) (by omega),
    charToSextet_sextetToChar (s := b0 % 4 * 16 + b1 / 16) (by omega),
    charToSextet_sextetToChar (s := b1 % 16 * 4) (by omega)]
  simp only
  rw [if_pos (by omega : b1 % 16 * 4 % 4 = 0)]
  refine congrArg some ?_
  simp
  constructor <;> omega

/-- Round trip of the low-level transcoder: decoding an encoded byte sequence
gives the bytes back. -/
theorem base64Decode_encode : ∀ (B : List Nat), (∀ b ∈ B, b < 256) →
    base64Decode (base64Encode B) = some B
  | [], _ => rfl
  | [b0], h => by
    have h0 : b0 < 256 := h b0 (by simp)
    rw [base64Encode]
    show decodeChunks _ = _
    rw [decodeChunks]
    simp only [List.isEmpty_nil, if_true]
    rw [decodeLastQuad]
    simp only [ne_eq, not_true_eq_false, if_false, if_pos rfl]
    exact decodeFinal2_encode h0
  | [b0, b1], h => by
    have h0 : b0 < 256 := h b0 (by simp)
    have h1 : b1 < 256 := h b1 (by simp)
    rw [base64Encode]
    show decodeChunks _ = _
    rw [decodeChunks]
    simp only [List.isEmpty_nil, if_true]
    rw [decodeLastQuad]
    simp only [ne_eq, not_true_eq_false, if_false]
    rw [if_neg (sextetToChar_ne_pad (s := b1 % 16 * 4) (by omega))]
    exact decodeFinal3_encode h0 h1
  | b0 :: b1 :: b2 :: rest, h => by
    have h0 : b0 < 256 := h b0 (by simp)
    have h1 : b1 < 256 := h b1 (by simp)
    have h2 : b2 < 256 := h b2 (by simp)
    have ih := base64Decode_encode rest (fun b hb => h b (by simp [hb]))
    rw [base64Encode]
    show decodeChunks _ = _
    rcases hrest : base64Encode rest with _ | ⟨d, ds⟩
    · have hr : rest = [] := base64Encode_eq_nil hrest
      subst hr
      rw [decodeChunks]
      simp only [List.isEmpty_nil, if_true]
      rw [decodeLastQuad]
      rw [if_pos (sextetToChar_ne_pad (s := b2 % 64) (by omega))]
      rw [decodeQuad_encode h0 h1 h2]
    · rw [hrest] at ih
      rw [decodeChunks]
      simp only [List.isEmpty_cons, if_false]
      rw [decodeQuad_encode h0 h1 h2]
      show (match some (b0, b1, b2), decodeChunks (d :: ds) with
        | some (a, b, c), some tail => some (a :: b :: c :: tail)
        | _, _ => none) = _
      rw [show decodeChunks (d :: ds) = some rest from ih]

/-- A successful dot split reassembles the input around the dot. -/
theorem revSplitDot_eq : ∀ (l a b : List Char), revSplitDot l = some (a, b) →
    l = a ++ '.' :: b
  | [], a, b => fun h => Option.noConfusion h
  | c :: rest, a, b => by
    rw [revSplitDot]
    by_cases hc : c = '.'
    · rw [if_pos hc]
      intro h
      simp only [Option.some.injEq, Prod.mk.injEq] at h
      obtain ⟨rfl, rfl⟩ := h
      simp [hc]
    · rw [if_neg hc]
      rcases hr : revSplitDot rest with _ | ⟨a', b'⟩
      · simp [hr]
      · intro h
        simp only [Option.map_some', Option.some.injEq, Prod.mk.injEq] at h
        obtain ⟨rfl, rfl⟩ := h
        have ih := revSplitDot_eq rest a' b' hr
        simp [ih]

/-- The slash split reassembles the input. -/
theorem revSplitSlash_append : ∀ (l : List Char),
    (revSplitSlash l).1 ++ (revSplitSlash l).2 = l
  | [] => rfl
  | c :: rest => by
    rw [revSplitSlash]
    by_cases hc : c = '/'
    · simp [hc]
    · simp only [if_neg hc, List.cons_append, List.cons.injEq, true_and]
      exact revSplitSlash_append rest

/-- For a path with an extension, replacing the extension by the extension
with a suffix appended appends the suffix to the whole path: the backup path
`Path::with_extension(&path, ext + ".bak")` of `write_file` is exactly
`path + ".bak"`. -/
theorem with_extension_append {p e suffix : List Char} (hs : suffix ≠ [])
    (h : extension p = some e) : with_extension p (e ++ suffix) = p ++ suffix := by
  rw [extension] at h
  rcases hd : revSplitDot (revSplitSlash p.reverse).1 with _ | ⟨er, sr⟩
  · rw [hd] at h; exact absurd h (by simp)
  · rw [hd] at h
    by_cases hsr : sr = []
    · simp [hsr] at h
    · simp only [if_neg hsr, Option.some.injEq] at h
      have he : e = er.reverse := h.symm
      have hname : (revSplitSlash p.reverse).1 = er ++ '.' :: sr :=
        revSplitDot_eq _ _ _ hd
      have hp : p = (revSplitSlash p.reverse).2.reverse ++
          (sr.reverse ++ '.' :: er.reverse) := by
        conv_lhs => rw [← List.reverse_reverse p,
          ← revSplitSlash_append p.reverse]
        rw [List.reverse_append, hname]
        simp
      have hstem : file_stem p = sr.reverse := by
        rw [file_stem, hd]
        simp [hsr]
      rw [with_extension, hstem, if_neg (by simp [hs] : ¬ e ++ suffix = [])]
      conv_rhs => rw [hp]
      rw [he]
      simp

/-- Appending a nonempty suffix changes a path. -/
theorem append_ne_self {p s : List Char} (hs : s ≠ []) : p ++ s ≠ p := by
  intro h
  have hl := congrArg List.length h
  rw [List.length_append] at hl
  exact hs (List.eq_nil_of_length_eq_zero (by omega))

/-- Claim C1 (code evaluated at the failing input): an envelope declaring
`unencoded_size = 2` with the empty base64 text — whose decoded length is 0,
not 2 — is accepted by `Base64File::decode`, which returns the zero-filled
buffer `[0, 0]` instead of failing with a `DecodeError`: the written length
reported by `decode_config_slice` is ignored, so a declared/actual size
mismatch is silently zero-padded. -/
theorem decode_accepts_size_mismatch :
    Base64File.decode { unencoded_size := 2, base64 := [] } =
      DecodeResult.ok [0, 0] ∧
    base64Decode [] = some [] := by
  exact ⟨rfl, rfl⟩

/-- Claim C3: decoding the payload produced by encoding a byte sequence `B`
(`unencoded_size = B.length`, base64 text of `B`) yields exactly `B`. -/
theorem decode_encode_roundtrip (B : List Nat) (h : ∀ b ∈ B, b < 256) :
    (encodePayload B).decode = DecodeResult.ok B := by
  rw [encodePayload, Base64File.decode]
  simp only
  rw [base64Decode_encode B h]
  simp

/-- Witness for C3 at the concrete byte sequence `[104, 105]`. -/
theorem decode_encode_roundtrip_witness :
    (∀ b ∈ [104, 105], b < 256) ∧
    (encodePayload [104, 105]).decode = DecodeResult.ok [104, 105] :=
  ⟨by decide, decode_encode_roundtrip [104, 105] (by decide)⟩

/-- Counterexample to claim C2 as stated: `open_file "./a.sav"` succeeds and
returns an envelope whose `path` field is the input `./a.sav`, not its
canonicalized form `/a.sav`. -/
theorem open_file_path_not_canonical :
    open_file c2FileSys "./a.sav".toList =
      .ok { path := "./a.sav".toList,
            file := { unencoded_size := 2, base64 := "aGk=".toList } } ∧
    c2FileSys.canonicalize "./a.sav".toList = .ok "/a.sav".toList ∧
    "./a.sav".toList ≠ "/a.sav".toList := by
  refine ⟨rfl, rfl, by decide⟩

/-- Claim C2 as amended: for every path accepted by `open_file`, the returned
envelope's `path` field equals the input path exactly as given; the
canonicalized path is used only to read the bytes. -/
theorem open_file_path_unchanged (fsys : FileSys) (path : List Char)
    (r : RpcFile) (h : open_file fsys path = .ok r) : r.path = path := by
  rw [open_file] at h
  split at h
  · exact absurd h (by simp)
  · split at h
    · exact absurd h (by simp)
    · cases h
      rfl

/-- Witness for the amended C2 at the counterexample file system. -/
theorem open_file_path_unchanged_witness :
    open_file c2FileSys "./a.sav".toList =
      .ok { path := "./a.sav".toList,
            file := { unencoded_size := 2, base64 := "aGk=".toList } } ∧
    RpcFile.path
        { path := "./a.sav".toList,
          file := { unencoded_size := 2, base64 := "aGk=".toList } } =
      "./a.sav".toList :=
  ⟨rfl, open_file_path_unchanged c2FileSys "./a.sav".toList _ rfl⟩

/-- Shape of the backup step when the destination exists and has an
extension. -/
theorem backupStep_eq (fs : FSState) (path e : List Char)
    (h1 : (fs.files path).isSome = true) (h2 : extension path = some e) :
    backupStep fs path =
      { files := fun p =>
          if p = with_extension path (e ++ ".bak".toList) then fs.files path
          else fs.files p } := by
  rw [backupStep, if_pos h1, h2]

/-- The backup step leaves a file system without the destination unchanged. -/
theorem backupStep_none (fs : FSState) (path : List Char)
    (h : fs.files path = none) : backupStep fs path = fs := by
  rw [backupStep, h]
  simp

/-- Claim C4: saving an envelope whose destination exists and has an extension
first copies the pre-save destination bytes to the sibling path obtained by
appending `.bak` to the extension — which is the destination path with
`.bak` appended — and then overwrites the destination with the decoded
payload; saving to a non-existent destination touches no path other than the
destination itself. -/
theorem write_file_backup (fs : FSState) (r : RpcFile) :
    (∀ (X Y : List Nat) (e : List Char),
      fs.files r.path = some X → extension r.path = some e →
      r.file.decode = DecodeResult.ok Y →
      with_extension r.path (e ++ ".bak".toList) = r.path ++ ".bak".toList ∧
      (write_file fs r).2 = DecodeResult.ok () ∧
      (write_file fs r).1.files (r.path ++ ".bak".toList) = some X ∧
      (write_file fs r).1.files r.path = some Y) ∧
    (fs.files r.path = none →
      ∀ p, p ≠ r.path → (write_file fs r).1.files p = fs.files p) := by
  constructor
  · intro X Y e h1 h2 h3
    have hbak : with_extension r.path (e ++ ".bak".toList) =
        r.path ++ ".bak".toList :=
      with_extension_append (by decide) h2
    have hne : r.path ++ ".bak".toList ≠ r.path := append_ne_self (by decide)
    have hstep := backupStep_eq fs r.path e (by rw [h1]; rfl) h2
    refine ⟨hbak, ?_, ?_, ?_⟩
    · simp only [write_file, h3]
    · simp only [write_file, h3]
      rw [if_neg hne, hstep]
      simp only
      rw [if_pos hbak.symm, h1]
    · simp only [write_file, h3]
      simp
  · intro h0 p hp
    rcases hd : r.file.decode with Y | _ | _ <;>
      simp only [write_file, hd]
    · rw [if_neg hp, backupStep_none fs r.path h0]
    · rw [backupStep_none fs r.path h0]
    · rw [backupStep_none fs r.path h0]

/-- Witness for C4: saving over an existing `a.sav` leaves `a.sav.bak` with
the old bytes and `a.sav` with the new bytes. -/
theorem write_file_backup_witness :
    c4FS.files c4File.path = some [1, 2, 3] ∧
    extension c4File.path = some "sav".toList ∧
    c4File.file.decode = DecodeResult.ok [9, 8] ∧
    (with_extension c4File.path ("sav".toList ++ ".bak".toList) =
        c4File.path ++ ".bak".toList ∧
      (write_file c4FS c4File).2 = DecodeResult.ok () ∧
      (write_file c4FS c4File).1.files (c4File.path ++ ".bak".toList) =
        some [1, 2, 3] ∧
      (write_file c4FS c4File).1.files c4File.path = some [9, 8]) :=
  ⟨by decide, by decide, by decide,
    (write_file_backup c4FS c4File).1 [1, 2, 3] [9, 8] "sav".toList
      (by decide) (by decide) (by decide)⟩

/-- Claim C10: when the destination exists with an extension but the payload
fails to decode, `write_file` returns the decode error, the destination's
bytes are unchanged, and the backup sibling has already been written with the
pre-save destination content — the copy happens before the decode. -/
theorem write_file_backup_before_decode (fs : FSState) (r : RpcFile)
    (X : List Nat) (e : List Char)
    (h1 : fs.files r.path = some X) (h2 : extension r.path = some e)
    (h3 : r.file.decode = DecodeResult.err) :
    (write_file fs r).2 = DecodeResult.err ∧
    (write_file fs r).1.files r.path = some X ∧
    (write_file fs r).1.files (r.path ++ ".bak".toList) = some X := by
  have hbak : with_extension r.path (e ++ ".bak".toList) =
      r.path ++ ".bak".toList :=
    with_extension_append (by decide) h2
  have hne : r.path ++ ".bak".toList ≠ r.path := append_ne_self (by decide)
  have hstep := backupStep_eq fs r.path e (by rw [h1]; rfl) h2
  refine ⟨?_, ?_, ?_⟩
  · simp only [write_file, h3]
  · simp only [write_file, h3]
    rw [hstep]
    simp only
    rw [if_neg (fun hh => hne (hbak ▸ hh.symm)), h1]
  · simp only [write_file, h3]
    rw [hstep]
    simp only
    rw [if_pos hbak.symm, h1]

/-- Witness for C10 at a concrete failing envelope. -/
theorem write_file_backup_before_decode_witness :
    c10FS.files c10File.path = some [7] ∧
    extension c10File.path = some "sav".toList ∧
    c10File.file.decode = DecodeResult.err ∧
    ((write_file c10FS c10File).2 = DecodeResult.err ∧
      (write_file c10FS c10File).1.files c10File.path = some [7] ∧
      (write_file c10FS c10File).1.files (c10File.path ++ ".bak".toList) =
        some [7]) :=
  ⟨by decide, by decide, by decide,
    write_file_backup_before_decode c10FS c10File [7] "sav".toList
      (by decide) (by decide) (by decide)⟩

/-- Claim C6: when the foreground-process inspector returns a name,
`start_capture` sends `StartCapture(args.name)` on the capture channel
exactly when the inspected name equals `args.name`; on a mismatch nothing is
sent; both branches return `Ok` with a caption — the stop caption on a
successful start, the mismatch caption otherwise. -/
theorem start_capture_gating (topapp : String) (args : StartCaptureArgs) :
    ((start_capture (.ok topapp) args).1 =
        [ChannelMsg.StartCapture args.name] ↔ topapp = args.name) ∧
    (topapp = args.name →
      start_capture (.ok topapp) args =
        ([ChannelMsg.StartCapture args.name], .ok "结束采集")) ∧
    (topapp ≠ args.name →
      start_capture (.ok topapp) args = ([], .ok "结束采集(请打开游戏)")) := by
  by_cases h : topapp = args.name <;> simp [start_capture, h]

/-- Witness for C6: with foreground process `Game.exe`, a request for
`Game.exe` enqueues the start signal, a request for a different name (here
with foreground `Other.exe`) enqueues nothing. -/
theorem start_capture_gating_witness :
    (start_capture (.ok "Game.exe") { name := "Game.exe" }).1 =
      [ChannelMsg.StartCapture "Game.exe"] ∧
    (start_capture (.ok "Other.exe") { name := "Game.exe" }).1 = [] :=
  ⟨((start_capture_gating "Game.exe" { name := "Game.exe" }).1).mpr rfl,
   congrArg Prod.fst
     ((start_capture_gating "Other.exe" { name := "Game.exe" }).2.2
       (by decide))⟩

/-- Claim C5: a request whose method matches no dispatch-table entry and is
not the special-cased `open_command_line_save` yields an error response,
carrying the request's id, whose message is exactly
`Wrong RPC method, got: <name>` — for every handler environment, request id,
parameter field and host state. -/
theorem unknown_method_error (env : RouterEnv) (id : Option JValue)
    (m : String) (params : Option JValue) (st : RpcState)
    (hm : m ∉ dispatchTable) (hs : m ≠ "open_command_line_save") :
    rpc_handler env { id := id, method := m, params := params } st =
      (st, some (RpcResponse.new_error id
        (some (JValue.str ("Wrong RPC method, got: " ++ m))))) := by
  simp only [dispatchTable, List.mem_cons, List.not_mem_nil, or_false,
    not_or] at hm
  obtain ⟨h1, h2, h3, h4, h5, h6, h7, h8, h9, h10, h11, h12, h13, h14, h15,
    h16, h17⟩ := hm
  have hh : handle_request env { id := id, method := m, params := params } st =
      (st, .error ("Wrong RPC method, got: " ++ m)) := by
    simp only [handle_request]
    rw [if_neg hs, if_neg h1, if_neg h2, if_neg h3, if_neg h4, if_neg h5,
      if_neg h6, if_neg h7, if_neg h8, if_neg h9, if_neg h10, if_neg h11,
      if_neg h12, if_neg h13, if_neg h14, if_neg h15, if_neg h16, if_neg h17]
  rw [rpc_handler, hh]

/-- Witness for C5 on the spec's scenario request `not_a_real_method`. -/
theorem unknown_method_error_witness :
    ("not_a_real_method" ∉ dispatchTable) ∧
    rpc_handler trivialEnv
        { id := some (JValue.num 2), method := "not_a_real_method",
          params := none } emptyState =
      (emptyState, some (RpcResponse.new_error (some (JValue.num 2))
        (some (JValue.str ("Wrong RPC method, got: " ++ "not_a_real_method"))))) :=
  ⟨by decide,
   unknown_method_error trivialEnv (some (JValue.num 2)) "not_a_real_method"
     none emptyState (by decide) (by decide)⟩

/-- Claim C7: a request for any call-with-param method whose `params` field
is absent fails with the `argument required` error response before the
parameter is decoded or the handler runs — for every handler environment the
state is returned unchanged. -/
theorem absent_params_argument_error (env : RouterEnv) (id : Option JValue)
    (m : String) (st : RpcState) (hm : m ∈ withParamMethods) :
    rpc_handler env { id := id, method := m, params := none } st =
      (st, some (RpcResponse.new_error id
        (some (JValue.str "argument required")))) := by
  simp only [withParamMethods, List.mem_cons, List.not_mem_nil, or_false] at hm
  rcases hm with rfl | rfl | rfl | rfl | rfl | rfl | rfl <;> rfl

/-- Witness for C7 on a `save_file` request without params. -/
theorem absent_params_argument_error_witness :
    ("save_file" ∈ withParamMethods) ∧
    rpc_handler trivialEnv
        { id := some (JValue.num 7), method := "save_file", params := none }
        emptyState =
      (emptyState, some (RpcResponse.new_error (some (JValue.num 7))
        (some (JValue.str "argument required")))) :=
  ⟨by decide,
   absent_params_argument_error trivialEnv (some (JValue.num 7)) "save_file"
     emptyState (by decide)⟩

/-- Claim C8: a `close` request produces no response frame and appends the
`CloseWindow` event to the event-proxy trace; handling `CloseWindow` sets the
control flow to `Exit`, and delivering it any further number of times leaves
the control flow at `Exit`. -/
theorem close_event_exit (env : RouterEnv) (id params : Option JValue)
    (st : RpcState) :
    rpc_handler env { id := id, method := "close", params := params } st =
      ({ st with events := st.events ++ [Event.CloseWindow] }, none) ∧
    (∀ cf : ControlFlow,
      (event_handler Event.CloseWindow cf).1 = ControlFlow.Exit) ∧
    (∀ (cf : ControlFlow) (n : Nat),
      (fun c => (event_handler Event.CloseWindow c).1)^[n + 1] cf =
        ControlFlow.Exit) := by
  refine ⟨rfl, fun cf => rfl, fun cf n => ?_⟩
  induction n with
  | zero => rfl
  | succ k ih =>
    rw [Function.iterate_succ']
    exact rfl

/-- Witness for C8 on the spec's scenario request `{id: 1, method: close}`. -/
theorem close_event_exit_witness :
    rpc_handler trivialEnv
        { id := some (JValue.num 1), method := "close", params := none }
        emptyState =
      ({ emptyState with events := [Event.CloseWindow] }, none) ∧
    (event_handler Event.CloseWindow ControlFlow.Wait).1 = ControlFlow.Exit :=
  ⟨(close_event_exit trivialEnv (some (JValue.num 1)) none emptyState).1,
   (close_event_exit trivialEnv (some (JValue.num 1)) none
     emptyState).2.1 ControlFlow.Wait⟩
